import Mathlib

/-!
Verification of a Conway's Game of Life engine.

The program keeps a square grid of cell states (`Alive` or `Dead`) as a
vector of row vectors.  `Grid.seed` builds a grid from a size and a list of
initially-live coordinates, writing each coordinate with an unchecked
index (modelled here with `Option`, where `none` is an out-of-bounds
access).  `Grid.next_generation` maps every cell of the input grid through
`state_based_on_neighbours`, which counts the live cells among the eight
neighbour positions (`neighbours_state`, with a bounds guard treating
off-grid positions as `Dead`) and applies the survival/birth rule.
-/

inductive State where
  | Alive
  | Dead
deriving DecidableEq, Repr

structure Grid where
  cells : List (List State)
deriving DecidableEq, Repr

/-- Read the cell at row `i`, column `j`; `none` when the access is out of
bounds. -/
def getCell (cells : List (List State)) (i j : Nat) : Option State :=
  (cells.get? i).bind fun row => row.get? j

/-- Write `Alive` at `position`, failing (like the unchecked indexing
`cells[position.0][position.1]` in the source) when either index is out of
bounds. -/
def setCellAlive (cells : List (List State)) (position : Nat × Nat) :
    Option (List (List State)) :=
  match cells.get? position.1 with
  | none => none
  | some row =>
    match row.get? position.2 with
    | none => none
    | some _ => some (cells.set position.1 (row.set position.2 State.Alive))

/-- `Grid::seed`: a `size × size` all-`Dead` grid, then each listed
coordinate set to `Alive` in order, with unchecked indexing. -/
def Grid.seed (size : Nat) (living_cells : List (Nat × Nat)) : Option Grid :=
  let row := List.replicate size State.Dead
  let cells := List.replicate size row
  (living_cells.foldlM setCellAlive cells).map Grid.mk

inductive Direction where
  | N
  | NE
  | E
  | SE
  | S
  | SW
  | W
  | NW
deriving DecidableEq, Repr

def Direction.translation : Direction → Int × Int
  | Direction.N => (-1, 0)
  | Direction.NE => (-1, 1)
  | Direction.E => (0, 1)
  | Direction.SE => (1, 1)
  | Direction.S => (1, 0)
  | Direction.SW => (1, -1)
  | Direction.W => (0, -1)
  | Direction.NW => (-1, -1)

/-- `neighbours_state`: the state found at `current_position` shifted by
`translation`.  Positions whose row or column is negative or equal to the
grid's row count are `Dead`; otherwise the grid is indexed (totally here,
with `Option.getD`; `neighbours_access_ok` below records whether the
indexing stays in bounds, i.e. whether the source's unchecked access would
succeed). -/
def neighbours_state (current_position : Nat × Nat) (cells : List (List State))
    (translation : Int × Int) : State :=
  let new_position : Int × Int :=
    ((current_position.1 : Int) + translation.1,
     (current_position.2 : Int) + translation.2)
  let size : Int := (cells.length : Int)
  if new_position.1 < 0 ∨ new_position.2 < 0 ∨
      new_position.1 = size ∨ new_position.2 = size then
    State.Dead
  else
    (getCell cells new_position.1.toNat new_position.2.toNat).getD State.Dead

/-- Whether the grid access performed by `neighbours_state` (when its
bounds guard falls through to the indexing branch) is in bounds. -/
def neighbours_access_ok (current_position : Nat × Nat)
    (cells : List (List State)) (translation : Int × Int) : Bool :=
  let new_position : Int × Int :=
    ((current_position.1 : Int) + translation.1,
     (current_position.2 : Int) + translation.2)
  let size : Int := (cells.length : Int)
  if new_position.1 < 0 ∨ new_position.2 < 0 ∨
      new_position.1 = size ∨ new_position.2 = size then
    true
  else
    (getCell cells new_position.1.toNat new_position.2.toNat).isSome

def neighbours_directions : List Direction :=
  [Direction.N, Direction.NE, Direction.E, Direction.SE,
   Direction.S, Direction.SW, Direction.W, Direction.NW]

/-- `state_based_on_neighbours`: count the live cells among the eight
neighbours and apply the survival/birth rule to `current_state`. -/
def state_based_on_neighbours (current_position : Nat × Nat)
    (cells : List (List State)) (current_state : State) : State :=
  let nmb_alive_neighbours :=
    ((neighbours_directions.map fun d =>
        neighbours_state current_position cells d.translation).filter
      fun state => state == State.Alive).length
  match current_state with
  | State.Alive =>
    match nmb_alive_neighbours with
    | 2 => State.Alive
    | 3 => State.Alive
    | _ => State.Dead
  | State.Dead =>
    match nmb_alive_neighbours with
    | 3 => State.Alive
    | _ => State.Dead

/-- `Grid::next_generation`: a fresh grid whose cell at `(r, c)` is
`state_based_on_neighbours` applied to the input grid's cell at `(r, c)`,
always reading neighbour states from the input grid. -/
def Grid.next_generation (g : Grid) : Grid :=
  Grid.mk (g.cells.enum.map fun p =>
    p.2.enum.map fun q => state_based_on_neighbours (p.1, q.1) g.cells q.2)

/-- A well-formed grid: every row as long as the list of rows. -/
def Grid.Square (g : Grid) : Prop :=
  ∀ row ∈ g.cells, row.length = g.cells.length

/-- The spec's list of the eight neighbour offsets. -/
def spec_offsets : List (Int × Int) :=
  [(-1, 0), (-1, 1), (0, 1), (1, 1), (1, 0), (1, -1), (0, -1), (-1, -1)]

/-- Spec-side count of `Alive` cells among the eight neighbour positions of
`(r, c)` in `g`: a position contributes only when it lies inside
`[0, size)` on both axes and holds `Alive` in `g`. -/
def spec_alive_count (g : Grid) (r c : Nat) : Nat :=
  (spec_offsets.filter fun t =>
    let nr : Int := (r : Int) + t.1
    let nc : Int := (c : Int) + t.2
    decide (0 ≤ nr) && decide (nr < (g.cells.length : Int)) &&
      decide (0 ≤ nc) && decide (nc < (g.cells.length : Int)) &&
      (getCell g.cells nr.toNat nc.toNat == some State.Alive)).length

/-- Spec-side transition rule: an `Alive` cell survives with 2 or 3 live
neighbours, a `Dead` cell is born with exactly 3, everything else is
`Dead`. -/
def spec_rule (current : State) (n : Nat) : State :=
  match current with
  | State.Alive => if n = 2 ∨ n = 3 then State.Alive else State.Dead
  | State.Dead => if n = 3 then State.Alive else State.Dead

/-- `Grid::random_grid`, with the ambient random source made explicit as a
coin oracle per position: each cell is `Alive` when its coin flip is true. -/
def Grid.random_grid (size : Nat) (coin : Nat → Nat → Bool) : Grid :=
  Grid.mk ((List.range size).map fun i =>
    (List.range size).map fun j =>
      if coin i j then State.Alive else State.Dead)

lemma next_generation_row (g : Grid) (r : Nat) :
    g.next_generation.cells.get? r =
      (g.cells.get? r).map fun row =>
        row.enum.map fun q => state_based_on_neighbours (r, q.1) g.cells q.2 := by
  show (g.cells.enum.map _).get? r = _
  rw [List.get?_map, List.get?_enum, Option.map_map]
  cases g.cells.get? r <;> rfl

lemma getCell_next_generation (g : Grid) {r c : Nat} {row : List State}
    {s : State} (hrow : g.cells.get? r = some row) (hs : row.get? c = some s) :
    getCell g.next_generation.cells r c =
      some (state_based_on_neighbours (r, c) g.cells s) := by
  rw [getCell, next_generation_row, hrow]
  show (row.enum.map _).get? c = _
  rw [List.get?_map, List.get?_enum, Option.map_map, hs]
  rfl

/-- C3: for every well-formed square grid, `next_generation` keeps the
number of rows and the length of every row. -/
theorem next_generation_preserves_dimensions (g : Grid) (hsq : g.Square) :
    g.next_generation.cells.length = g.cells.length ∧
    ∀ r : Nat, (g.next_generation.cells.get? r).map List.length =
      (g.cells.get? r).map List.length := by
  constructor
  · show (g.cells.enum.map _).length = _
    rw [List.length_map, List.enum_length]
  · intro r
    rw [next_generation_row]
    cases g.cells.get? r with
    | none => rfl
    | some row => simp [List.enum_length]

theorem next_generation_preserves_dimensions_witness :
    (Grid.mk [[State.Alive]]).Square ∧
    ((Grid.mk [[State.Alive]]).next_generation.cells.length =
        (Grid.mk [[State.Alive]]).cells.length ∧
      ∀ r : Nat,
        ((Grid.mk [[State.Alive]]).next_generation.cells.get? r).map List.length =
          ((Grid.mk [[State.Alive]]).cells.get? r).map List.length) :=
  ⟨by intro row hrow; simp at hrow; simp [hrow],
   next_generation_preserves_dimensions (Grid.mk [[State.Alive]])
     (by intro row hrow; simp at hrow; simp [hrow])⟩

/-- C4: one `next_generation` step turns the vertical blinker (column 1 of
a 3×3 grid fully `Alive`) into the horizontal blinker (row 1 fully
`Alive`). -/
theorem blinker_step :
    (Grid.mk [[State.Dead, State.Alive, State.Dead],
              [State.Dead, State.Alive, State.Dead],
              [State.Dead, State.Alive, State.Dead]]).next_generation =
      Grid.mk [[State.Dead, State.Dead, State.Dead],
               [State.Alive, State.Alive, State.Alive],
               [State.Dead, State.Dead, State.Dead]] := by
  decide

/-- C6: `next_generation` is deterministic — equal input grids give equal
output grids. -/
theorem next_generation_deterministic (g1 g2 : Grid) (h : g1 = g2) :
    g1.next_generation = g2.next_generation :=
  congrArg Grid.next_generation h

theorem next_generation_deterministic_witness :
    Grid.mk [[State.Alive]] = Grid.mk [[State.Alive]] ∧
    (Grid.mk [[State.Alive]]).next_generation =
      (Grid.mk [[State.Alive]]).next_generation :=
  ⟨rfl, next_generation_deterministic (Grid.mk [[State.Alive]])
    (Grid.mk [[State.Alive]]) rfl⟩

/-- C7 counterexample: construction with `size = 0` reports no error at
all — seeding with size 0 succeeds and produces the empty grid. -/
theorem seed_size_zero_returns_grid : Grid.seed 0 [] = some (Grid.mk []) := by
  rfl

/-- C7 amended: construction requested with `size = 0` produces the empty
0×0 grid; the code defines no `InvalidSize` error and reports nothing to
the caller. -/
theorem construction_size_zero_empty_grid (coin : Nat → Nat → Bool) :
    Grid.seed 0 [] = some (Grid.mk []) ∧ Grid.random_grid 0 coin = Grid.mk [] :=
  ⟨rfl, rfl⟩

instance (g : Grid) : Decidable g.Square :=
  decidable_of_iff (∀ row ∈ g.cells, row.length = g.cells.length) Iff.rfl

lemma getCell_some {cells : List (List State)}
    (hsq : ∀ row ∈ cells, row.length = cells.length) {i j : Nat}
    (hi : i < cells.length) (hj : j < cells.length) :
    ∃ s, getCell cells i j = some s := by
  rcases h : cells.get? i with _ | row
  · rw [List.get?_eq_none] at h
    omega
  · have hrow := hsq row (List.get?_mem h)
    rcases h2 : row.get? j with _ | s
    · rw [List.get?_eq_none] at h2
      omega
    · exact ⟨s, by rw [getCell, h]; exact h2⟩

/-- C2: for a well-formed square grid and an in-range cell, a neighbour
position that falls outside `[0, size)` on either axis yields `Dead` from
`neighbours_state` (no wraparound). -/
theorem out_of_range_neighbour_dead (g : Grid) (hsq : g.Square) (r c : Nat)
    (hr : r < g.cells.length) (hc : c < g.cells.length) (d : Direction)
    (hout : (r : Int) + d.translation.1 < 0 ∨
        (g.cells.length : Int) ≤ (r : Int) + d.translation.1 ∨
        (c : Int) + d.translation.2 < 0 ∨
        (g.cells.length : Int) ≤ (c : Int) + d.translation.2) :
    neighbours_state (r, c) g.cells d.translation = State.Dead := by
  cases d <;>
    (simp only [Direction.translation, neighbours_state] at hout ⊢; split
     · rfl
     · omega)

theorem out_of_range_neighbour_dead_witness :
    (Grid.mk [[State.Alive]]).Square ∧ (0 : Nat) < 1 ∧
    ((0 : Nat) : Int) + (Direction.N).translation.1 < 0 ∧
    neighbours_state (0, 0) (Grid.mk [[State.Alive]]).cells
      (Direction.N).translation = State.Dead :=
  ⟨by decide, by decide, by decide,
   out_of_range_neighbour_dead (Grid.mk [[State.Alive]]) (by decide) 0 0
     (by decide) (by decide) Direction.N (Or.inl (by decide))⟩

lemma access_ok_of_bounds {cells : List (List State)}
    (hsq : ∀ row ∈ cells, row.length = cells.length) {r c : Nat}
    (hr : r < cells.length) (hc : c < cells.length) {t : Int × Int}
    (ht1 : t.1 ≤ 1) (ht2 : t.2 ≤ 1) :
    neighbours_access_ok (r, c) cells t = true := by
  simp only [neighbours_access_ok]
  split
  · rfl
  · rename_i h
    push_neg at h
    have hi : ((r : Int) + t.1).toNat < cells.length := by omega
    have hj : ((c : Int) + t.2).toNat < cells.length := by omega
    obtain ⟨s, hs⟩ := getCell_some hsq hi hj
    rw [hs]
    rfl

/-- C10: for a well-formed square grid, an in-range cell and any of the
eight directions, the indexing branch of `neighbours_state` stays in
bounds — the guard testing only for negatives and for equality with `size`
is sufficient. -/
theorem neighbour_access_in_bounds (g : Grid) (hsq : g.Square) (r c : Nat)
    (hr : r < g.cells.length) (hc : c < g.cells.length) (d : Direction) :
    neighbours_access_ok (r, c) g.cells d.translation = true := by
  have ht1 : d.translation.1 ≤ 1 := by cases d <;> decide
  have ht2 : d.translation.2 ≤ 1 := by cases d <;> decide
  exact access_ok_of_bounds hsq hr hc ht1 ht2

theorem neighbour_access_in_bounds_witness :
    (Grid.mk [[State.Alive]]).Square ∧ (0 : Nat) < 1 ∧
    neighbours_access_ok (0, 0) (Grid.mk [[State.Alive]]).cells
      (Direction.SE).translation = true :=
  ⟨by decide, by decide,
   neighbour_access_in_bounds (Grid.mk [[State.Alive]]) (by decide) 0 0
     (by decide) (by decide) Direction.SE⟩

lemma neighbours_state_alive_iff {cells : List (List State)}
    (hsq : ∀ row ∈ cells, row.length = cells.length) {r c : Nat}
    (hr : r < cells.length) (hc : c < cells.length) {t : Int × Int}
    (ht1 : t.1 ≤ 1) (ht2 : t.2 ≤ 1) :
    neighbours_state (r, c) cells t = State.Alive ↔
      0 ≤ (r : Int) + t.1 ∧ (r : Int) + t.1 < (cells.length : Int) ∧
      0 ≤ (c : Int) + t.2 ∧ (c : Int) + t.2 < (cells.length : Int) ∧
      getCell cells ((r : Int) + t.1).toNat ((c : Int) + t.2).toNat =
        some State.Alive := by
  simp only [neighbours_state]
  split
  · rename_i h
    constructor
    · intro habs
      exact absurd habs (by simp)
    · rintro ⟨h1, h2, h3, h4, _⟩
      omega
  · rename_i h
    push_neg at h
    have hi : ((r : Int) + t.1).toNat < cells.length := by omega
    have hj : ((c : Int) + t.2).toNat < cells.length := by omega
    obtain ⟨s, hs⟩ := getCell_some hsq hi hj
    rw [hs]
    simp only [Option.getD_some]
    constructor
    · intro hA
      exact ⟨by omega, by omega, by omega, by omega, by rw [hA]⟩
    · rintro ⟨_, _, _, _, h5⟩
      exact (Option.some_inj.mp h5)

lemma code_count_eq_spec (g : Grid) (hsq : g.Square) {r c : Nat}
    (hr : r < g.cells.length) (hc : c < g.cells.length) :
    ((neighbours_directions.map fun d =>
        neighbours_state (r, c) g.cells d.translation).filter
      fun state => state == State.Alive).length = spec_alive_count g r c := by
  have hmap : (neighbours_directions.map fun d =>
      neighbours_state (r, c) g.cells d.translation) =
      spec_offsets.map fun t => neighbours_state (r, c) g.cells t := rfl
  rw [hmap, List.filter_map, List.length_map, spec_alive_count]
  apply congrArg List.length
  apply List.filter_congr
  intro t ht
  have ht1 : t.1 ≤ 1 := by fin_cases ht <;> decide
  have ht2 : t.2 ≤ 1 := by fin_cases ht <;> decide
  rw [Bool.eq_iff_iff]
  simp only [Function.comp_apply, Bool.and_eq_true, decide_eq_true_eq,
    beq_iff_eq, and_assoc]
  exact neighbours_state_alive_iff hsq hr hc ht1 ht2

lemma sbn_eq_spec_rule (g : Grid) (hsq : g.Square) {r c : Nat}
    (hr : r < g.cells.length) (hc : c < g.cells.length) (s : State) :
    state_based_on_neighbours (r, c) g.cells s =
      spec_rule s (spec_alive_count g r c) := by
  simp only [state_based_on_neighbours]
  rw [code_count_eq_spec g hsq hr hc]
  cases s <;>
    rcases h : spec_alive_count g r c with _ | _ | _ | _ | n <;>
      simp [spec_rule]

/-- C1: for a well-formed square grid and an in-range cell `(r, c)`, the
cell `(r, c)` of `next_generation` is the rule applied to the input
generation: `Alive` when the input cell is `Alive` with 2 or 3 live
neighbours counted in the input grid, `Alive` when it is `Dead` with
exactly 3, and `Dead` otherwise. -/
theorem next_generation_cell_rule (g : Grid) (hsq : g.Square) (r c : Nat)
    (row : List State) (s : State)
    (hrow : g.cells.get? r = some row) (hs : row.get? c = some s) :
    getCell g.next_generation.cells r c =
      some (spec_rule s (spec_alive_count g r c)) := by
  have hr : r < g.cells.length := by
    rcases List.get?_eq_some.mp hrow with ⟨h, _⟩
    exact h
  have hc : c < g.cells.length := by
    rcases List.get?_eq_some.mp hs with ⟨h, _⟩
    have := hsq row (List.get?_mem hrow)
    omega
  rw [getCell_next_generation g hrow hs, sbn_eq_spec_rule g hsq hr hc]

theorem next_generation_cell_rule_witness :
    (Grid.mk [[State.Alive, State.Alive], [State.Alive, State.Dead]]).Square ∧
    (Grid.mk [[State.Alive, State.Alive],
      [State.Alive, State.Dead]]).cells.get? 0 =
        some [State.Alive, State.Alive] ∧
    [State.Alive, State.Alive].get? 0 = some State.Alive ∧
    getCell (Grid.mk [[State.Alive, State.Alive],
        [State.Alive, State.Dead]]).next_generation.cells 0 0 =
      some (spec_rule State.Alive
        (spec_alive_count
          (Grid.mk [[State.Alive, State.Alive], [State.Alive, State.Dead]])
          0 0)) :=
  ⟨by decide, by decide, by decide,
   next_generation_cell_rule
     (Grid.mk [[State.Alive, State.Alive], [State.Alive, State.Dead]])
     (by decide) 0 0 [State.Alive, State.Alive] State.Alive
     (by decide) (by decide)⟩

lemma setCellAlive_some {cells : List (List State)} {n : Nat}
    (h1 : cells.length = n) (h2 : ∀ row ∈ cells, row.length = n)
    {p : Nat × Nat} (hp1 : p.1 < n) (hp2 : p.2 < n) :
    ∃ cells', setCellAlive cells p = some cells' ∧
      cells'.length = n ∧ (∀ row ∈ cells', row.length = n) ∧
      ∀ r c : Nat, getCell cells' r c =
        if (r, c) = p then some State.Alive else getCell cells r c := by
  rcases h : cells.get? p.1 with _ | row
  · rw [List.get?_eq_none] at h
    omega
  · have hrow : row.length = n := h2 row (List.get?_mem h)
    rcases h2' : row.get? p.2 with _ | s
    · rw [List.get?_eq_none] at h2'
      omega
    · have hset1 : (cells.set p.1 (row.set p.2 State.Alive)).get? p.1 =
          some (row.set p.2 State.Alive) :=
        List.get?_set_eq_of_lt _ (by omega)
      have hset2 : (row.set p.2 State.Alive).get? p.2 = some State.Alive :=
        List.get?_set_eq_of_lt _ (by omega)
      refine ⟨cells.set p.1 (row.set p.2 State.Alive), ?_, ?_, ?_, ?_⟩
      · simp only [setCellAlive, h, h2']
      · rw [List.length_set, h1]
      · intro row' hmem
        rcases List.mem_or_eq_of_mem_set hmem with hmem' | rfl
        · exact h2 row' hmem'
        · rw [List.length_set, hrow]
      · intro r c
        by_cases hcase : r = p.1
        · subst hcase
          by_cases hcase2 : c = p.2
          · subst hcase2
            rw [getCell, hset1, Option.some_bind, hset2, if_pos rfl]
          · rw [getCell, hset1, Option.some_bind,
              List.get?_set_ne _ _ (fun hne => hcase2 hne.symm),
              if_neg (fun hpair => hcase2 (congrArg Prod.snd hpair)),
              getCell, h, Option.some_bind]
        · rw [getCell, List.get?_set_ne _ _ (fun hne => hcase hne.symm),
            ← getCell,
            if_neg (fun hpair => hcase (congrArg Prod.fst hpair))]

lemma seed_fold_ok {n : Nat} (l : List (Nat × Nat)) :
    ∀ cells : List (List State),
      cells.length = n → (∀ row ∈ cells, row.length = n) →
      (∀ p ∈ l, p.1 < n ∧ p.2 < n) →
      ∃ cells', l.foldlM setCellAlive cells = some cells' ∧
        cells'.length = n ∧ (∀ row ∈ cells', row.length = n) ∧
        ∀ r c : Nat, getCell cells' r c =
          if (r, c) ∈ l then some State.Alive else getCell cells r c := by
  induction l with
  | nil =>
    intro cells h1 h2 _
    exact ⟨cells, rfl, h1, h2, by simp⟩
  | cons p rest ih =>
    intro cells h1 h2 hl
    obtain ⟨hp1, hp2⟩ := hl p (List.mem_cons_self p rest)
    obtain ⟨cs1, hset, hlen1, hrows1, hget1⟩ := setCellAlive_some h1 h2 hp1 hp2
    obtain ⟨cs2, hfold, hlen2, hrows2, hget2⟩ :=
      ih cs1 hlen1 hrows1 fun q hq => hl q (List.mem_cons_of_mem p hq)
    refine ⟨cs2, ?_, hlen2, hrows2, ?_⟩
    · rw [List.foldlM_cons, hset]
      simpa using hfold
    · intro r c
      rw [hget2, hget1]
      by_cases hmem : (r, c) ∈ rest
      · simp [hmem, List.mem_cons]
      · by_cases heq : (r, c) = p
        · simp [heq, hmem, List.mem_cons]
        · simp [heq, hmem, List.mem_cons]

lemma getCell_dead_grid {n r c : Nat} (hr : r < n) (hc : c < n) :
    getCell (List.replicate n (List.replicate n State.Dead)) r c =
      some State.Dead := by
  rw [getCell, List.get?_eq_getElem?, List.getElem?_replicate, if_pos hr,
    Option.some_bind, List.get?_eq_getElem?, List.getElem?_replicate, if_pos hc]

/-- C5: for a positive size and in-range seed coordinates, `Grid::seed`
returns a `size × size` grid holding `Alive` exactly at the listed
coordinates and `Dead` everywhere else. -/
theorem seed_exact (size : Nat) (hsize : 0 < size)
    (living_cells : List (Nat × Nat))
    (hl : ∀ p ∈ living_cells, p.1 < size ∧ p.2 < size) :
    ∃ g : Grid, Grid.seed size living_cells = some g ∧
      g.cells.length = size ∧ (∀ row ∈ g.cells, row.length = size) ∧
      ∀ r c : Nat, r < size → c < size →
        getCell g.cells r c =
          some (if (r, c) ∈ living_cells then State.Alive else State.Dead) := by
  have hinit1 : (List.replicate size (List.replicate size State.Dead)).length =
      size := by simp
  have hinit2 : ∀ row ∈ List.replicate size (List.replicate size State.Dead),
      row.length = size := by
    intro row hmem
    rw [List.eq_of_mem_replicate hmem]
    simp
  obtain ⟨cs, hfold, hlen, hrows, hget⟩ :=
    seed_fold_ok living_cells _ hinit1 hinit2 hl
  refine ⟨Grid.mk cs, ?_, hlen, hrows, ?_⟩
  · show (living_cells.foldlM setCellAlive
      (List.replicate size (List.replicate size State.Dead))).map Grid.mk =
        some (Grid.mk cs)
    rw [hfold]
    rfl
  · intro r c hr hc
    rw [hget]
    by_cases hmem : (r, c) ∈ living_cells
    · rw [if_pos hmem, if_pos hmem]
    · rw [if_neg hmem, if_neg hmem, getCell_dead_grid hr hc]

theorem seed_exact_witness :
    0 < 2 ∧ (∀ p ∈ [((0 : Nat), (1 : Nat))], p.1 < 2 ∧ p.2 < 2) ∧
    (∃ g : Grid, Grid.seed 2 [(0, 1)] = some g ∧
      g.cells.length = 2 ∧ (∀ row ∈ g.cells, row.length = 2) ∧
      ∀ r c : Nat, r < 2 → c < 2 →
        getCell g.cells r c =
          some (if (r, c) ∈ [((0 : Nat), (1 : Nat))] then State.Alive
            else State.Dead)) :=
  ⟨by decide, by decide, seed_exact 2 (by decide) [(0, 1)] (by decide)⟩

lemma setCellAlive_oob {cells : List (List State)} {n : Nat}
    (h1 : cells.length = n) (h2 : ∀ row ∈ cells, row.length = n)
    {p : Nat × Nat} (hp : n ≤ p.1 ∨ n ≤ p.2) :
    setCellAlive cells p = none := by
  rcases h : cells.get? p.1 with _ | row
  · simp only [setCellAlive, h]
  · have hlt : p.1 < n := by
      rcases List.get?_eq_some.mp h with ⟨hh, _⟩
      omega
    have hrow : row.length = n := h2 row (List.get?_mem h)
    have h2' : row.get? p.2 = none := by
      rw [List.get?_eq_none]
      omega
    simp only [setCellAlive, h, h2']

lemma seed_fold_oob {n : Nat} (l : List (Nat × Nat)) :
    ∀ cells : List (List State),
      cells.length = n → (∀ row ∈ cells, row.length = n) →
      (∃ p ∈ l, n ≤ p.1 ∨ n ≤ p.2) →
      l.foldlM setCellAlive cells = none := by
  induction l with
  | nil =>
    intro cells _ _ hex
    simp at hex
  | cons p rest ih =>
    intro cells h1 h2 hex
    by_cases hp : n ≤ p.1 ∨ n ≤ p.2
    · rw [List.foldlM_cons, setCellAlive_oob h1 h2 hp]
      rfl
    · push_neg at hp
      obtain ⟨cs1, hset, hlen1, hrows1, _⟩ :=
        setCellAlive_some h1 h2 hp.1 hp.2
      have hex' : ∃ q ∈ rest, n ≤ q.1 ∨ n ≤ q.2 := by
        rcases hex with ⟨q, hq, hq2⟩
        rcases List.mem_cons.mp hq with rfl | hq'
        · exact absurd hq2 (by omega)
        · exact ⟨q, hq', hq2⟩
      rw [List.foldlM_cons, hset]
      simpa using ih cs1 hlen1 hrows1 hex'

/-- C8: seeding does no bounds checking — whenever the seed list contains a
coordinate with row or column at or beyond `size`, `Grid::seed` hits the
error branch of its unchecked indexing (an out-of-bounds access) instead
of returning a grid or a clean error. -/
theorem seed_out_of_range_out_of_bounds (size : Nat)
    (living_cells : List (Nat × Nat))
    (hbad : ∃ p ∈ living_cells, size ≤ p.1 ∨ size ≤ p.2) :
    Grid.seed size living_cells = none := by
  have hinit2 : ∀ row ∈ List.replicate size (List.replicate size State.Dead),
      row.length = size := by
    intro row hmem
    rw [List.eq_of_mem_replicate hmem]
    simp
  have h := seed_fold_oob living_cells
    (List.replicate size (List.replicate size State.Dead)) (by simp)
    hinit2 hbad
  show (living_cells.foldlM setCellAlive
    (List.replicate size (List.replicate size State.Dead))).map Grid.mk = none
  rw [h]
  rfl

theorem seed_out_of_range_out_of_bounds_witness :
    (∃ p ∈ [((2 : Nat), (0 : Nat))], 2 ≤ p.1 ∨ 2 ≤ p.2) ∧
    Grid.seed 2 [(2, 0)] = none :=
  ⟨by decide,
   seed_out_of_range_out_of_bounds 2 [(2, 0)] (by decide)⟩

/-- The `size × size` grid whose only `Alive` cell is `(r, c)`. -/
def single_live_grid (size r c : Nat) : Grid :=
  Grid.mk ((List.range size).map fun i =>
    (List.range size).map fun j =>
      if i = r ∧ j = c then State.Alive else State.Dead)

/-- The `size × size` grid with every cell `Dead`. -/
def all_dead_grid (size : Nat) : Grid :=
  Grid.mk ((List.range size).map fun _ => List.replicate size State.Dead)

lemma Grid.eq_of_cells_eq {g₁ g₂ : Grid} (h : g₁.cells = g₂.cells) :
    g₁ = g₂ := by
  cases g₁
  cases g₂
  cases h
  rfl

lemma single_cells_length (size r c : Nat) :
    (single_live_grid size r c).cells.length = size := by
  simp [single_live_grid]

lemma single_row (r c : Nat) {size i : Nat} (hi : i < size) :
    (single_live_grid size r c).cells.get? i =
      some ((List.range size).map fun j =>
        if i = r ∧ j = c then State.Alive else State.Dead) := by
  show ((List.range size).map _).get? i = _
  rw [List.get?_eq_getElem?, List.getElem?_map, List.getElem?_range hi]
  rfl

lemma single_getCell (r c : Nat) {size i j : Nat} (hi : i < size)
    (hj : j < size) :
    getCell (single_live_grid size r c).cells i j =
      some (if i = r ∧ j = c then State.Alive else State.Dead) := by
  rw [getCell, single_row r c hi, Option.some_bind, List.get?_eq_getElem?,
    List.getElem?_map, List.getElem?_range hj]
  rfl

lemma single_neighbour {size r c i j : Nat} (hr : r < size) (hc : c < size)
    (hi : i < size) (hj : j < size) {t : Int × Int}
    (ht1 : t.1 ≤ 1) (ht2 : t.2 ≤ 1) :
    neighbours_state (i, j) (single_live_grid size r c).cells t =
      if (i : Int) + t.1 = (r : Int) ∧ (j : Int) + t.2 = (c : Int)
      then State.Alive else State.Dead := by
  have hlen : (single_live_grid size r c).cells.length = size :=
    single_cells_length size r c
  simp only [neighbours_state, hlen]
  split
  · rename_i h
    rw [if_neg]
    rintro ⟨e1, e2⟩
    omega
  · rename_i h
    push_neg at h
    have hi' : ((i : Int) + t.1).toNat < size := by omega
    have hj' : ((j : Int) + t.2).toNat < size := by omega
    rw [single_getCell r c hi' hj', Option.getD_some]
    have hiff : (((i : Int) + t.1).toNat = r ∧ ((j : Int) + t.2).toNat = c) ↔
        ((i : Int) + t.1 = (r : Int) ∧ (j : Int) + t.2 = (c : Int)) := by
      omega
    by_cases he : (i : Int) + t.1 = (r : Int) ∧ (j : Int) + t.2 = (c : Int)
    · rw [if_pos (hiff.mpr he), if_pos he]
    · rw [if_neg (fun hh => he (hiff.mp hh)), if_neg he]

lemma spec_offsets_count_le_one (x : Int × Int) :
    List.countP (fun t => decide (t = x)) spec_offsets ≤ 1 := by
  have hnd : spec_offsets.Nodup := by decide
  exact List.nodup_iff_count_le_one.mp hnd x

lemma single_count {size r c i j : Nat} (hr : r < size) (hc : c < size)
    (hi : i < size) (hj : j < size) :
    ((neighbours_directions.map fun d =>
        neighbours_state (i, j) (single_live_grid size r c).cells
          d.translation).filter
      fun state => state == State.Alive).length =
      List.countP (fun t => decide (t = (((r : Int) - i, (c : Int) - j))))
        spec_offsets := by
  have hmap : (neighbours_directions.map fun d =>
      neighbours_state (i, j) (single_live_grid size r c).cells
        d.translation) =
      spec_offsets.map fun t =>
        neighbours_state (i, j) (single_live_grid size r c).cells t := rfl
  rw [hmap, List.filter_map, List.length_map, List.countP_eq_length_filter]
  apply congrArg List.length
  apply List.filter_congr
  intro t ht
  have ht1 : t.1 ≤ 1 := by fin_cases ht <;> decide
  have ht2 : t.2 ≤ 1 := by fin_cases ht <;> decide
  rw [Function.comp_apply, single_neighbour hr hc hi hj ht1 ht2]
  have hiff : ((i : Int) + t.1 = (r : Int) ∧ (j : Int) + t.2 = (c : Int)) ↔
      t = ((r : Int) - i, (c : Int) - j) := by
    constructor
    · rintro ⟨e1, e2⟩
      have f1 : t.1 = (r : Int) - i := by omega
      have f2 : t.2 = (c : Int) - j := by omega
      exact Prod.ext f1 f2
    · intro he2
      have f1 : t.1 = (r : Int) - i := by rw [he2]
      have f2 : t.2 = (c : Int) - j := by rw [he2]
      exact ⟨by omega, by omega⟩
  by_cases he : (i : Int) + t.1 = (r : Int) ∧ (j : Int) + t.2 = (c : Int)
  · rw [if_pos he, Bool.eq_iff_iff]
    simp [hiff.mp he]
  · rw [if_neg he, Bool.eq_iff_iff]
    simp only [beq_iff_eq, decide_eq_true_eq]
    constructor
    · intro hfalse
      exact absurd hfalse (by simp)
    · intro hcontra
      exact absurd (hiff.mpr hcontra) he

lemma single_sbn {size r c i j : Nat} (hr : r < size) (hc : c < size)
    (hi : i < size) (hj : j < size) :
    state_based_on_neighbours (i, j) (single_live_grid size r c).cells
      (if i = r ∧ j = c then State.Alive else State.Dead) = State.Dead := by
  simp only [state_based_on_neighbours]
  rw [single_count hr hc hi hj]
  by_cases he : i = r ∧ j = c
  · obtain ⟨rfl, rfl⟩ := he
    rw [if_pos ⟨rfl, rfl⟩]
    have h0 : (((i : Int) - i, (j : Int) - j) : Int × Int) =
        ((0 : Int), (0 : Int)) := by
      apply Prod.ext <;> simp
    rw [h0]
    have hcnt : List.countP (fun t => decide (t = (((0 : Int), (0 : Int)))))
        spec_offsets = 0 := by decide
    rw [hcnt]
  · rw [if_neg he]
    have hle := spec_offsets_count_le_one (((r : Int) - i, (c : Int) - j))
    generalize hgen : List.countP
        (fun t => decide (t = (((r : Int) - i, (c : Int) - j))))
        spec_offsets = n at hle ⊢
    rcases n with _ | _ | m
    · rfl
    · rfl
    · omega

/-- C9: for every positive size and every in-range `(r, c)`, one
`next_generation` step maps the grid whose only `Alive` cell is `(r, c)`
to the all-`Dead` grid of the same size — an isolated cell dies. -/
theorem single_cell_dies (size r c : Nat) (hsize : 1 ≤ size)
    (hr : r < size) (hc : c < size) :
    (single_live_grid size r c).next_generation = all_dead_grid size := by
  have hlen : (single_live_grid size r c).cells.length = size :=
    single_cells_length size r c
  apply Grid.eq_of_cells_eq
  apply List.ext
  intro i
  by_cases hi : i < size
  · rw [next_generation_row, single_row r c hi]
    have hrhs : (all_dead_grid size).cells.get? i =
        some (List.replicate size State.Dead) := by
      show ((List.range size).map _).get? i = _
      rw [List.get?_eq_getElem?, List.getElem?_map, List.getElem?_range hi]
      rfl
    rw [hrhs, Option.map_some']
    apply congrArg some
    apply List.ext
    intro j
    by_cases hj : j < size
    · have hrowj : ((List.range size).map fun j =>
          if i = r ∧ j = c then State.Alive else State.Dead).get? j =
            some (if i = r ∧ j = c then State.Alive else State.Dead) := by
        rw [List.get?_eq_getElem?, List.getElem?_map, List.getElem?_range hj]
        rfl
      rw [List.get?_map, List.get?_enum, hrowj, Option.map_map]
      have hrepl : (List.replicate size State.Dead).get? j =
          some State.Dead := by
        rw [List.get?_eq_getElem?, List.getElem?_replicate, if_pos hj]
      rw [hrepl]
      show some (state_based_on_neighbours (i, j)
        (single_live_grid size r c).cells
        (if i = r ∧ j = c then State.Alive else State.Dead)) =
          some State.Dead
      exact congrArg some (single_sbn hr hc hi hj)
    · have hlhs : ((((List.range size).map fun j =>
          if i = r ∧ j = c then State.Alive else State.Dead).enum.map
            fun q => state_based_on_neighbours (i, q.1)
              (single_live_grid size r c).cells q.2)).get? j = none := by
        rw [List.get?_eq_none]
        simp [List.enum_length]
        omega
      have hrhs2 : (List.replicate size State.Dead).get? j = none := by
        rw [List.get?_eq_none]
        simp
        omega
      rw [hlhs, hrhs2]
  · rw [next_generation_row]
    have h1 : (single_live_grid size r c).cells.get? i = none := by
      rw [List.get?_eq_none]
      omega
    have h2 : (all_dead_grid size).cells.get? i = none := by
      rw [List.get?_eq_none]
      have hdl : (all_dead_grid size).cells.length = size := by
        simp [all_dead_grid]
      omega
    rw [h1, h2]
    rfl

theorem single_cell_dies_witness :
    1 ≤ 3 ∧ 1 < 3 ∧ 2 < 3 ∧
    (single_live_grid 3 1 2).next_generation = all_dead_grid 3 :=
  ⟨by decide, by decide, by decide,
   single_cell_dies 3 1 2 (by decide) (by decide) (by decide)⟩
